import Mathlib

/-
Verification of the transport core of the pekala/trpc repository:
the HTTP batch link (src/packages/client/src/links/httpBatchLink.ts,
including the inlined httpRequest helper) and the websocket handler
(src/packages/server/src/ws/wssHandler.ts).

JavaScript values that flow through the transport are modelled by the
inductive type JsValue; the possibly-undefined values of JavaScript are
modelled as Option JsValue (none = undefined).  JavaScript Map objects
are modelled as association lists with the usual get/set/delete/has
operations.  Effectful code (callbacks, subscriptions, sockets) is
modelled by explicit state passing: each handler is a function from a
state record to a state record, and observable effects (destroy calls,
sent messages) are accumulated in lists inside the state.
-/

set_option autoImplicit false

namespace Spec2Proof

universe u v

/-- JS runtime values as they appear after JSON decoding.  The nan
constructor models the JavaScript NaN number (typeof NaN is number but
isNaN holds), so the non-NaN check of the websocket handler is
representable. -/
inductive JsValue where
  | null
  | bool (b : Bool)
  | num (n : Int)
  | nan
  | str (s : String)
  | arr (elems : List JsValue)
  | obj (fields : List (String × JsValue))

/-- Lookup in an association list modelling a JS Map or object: the
first entry with the given key wins, a missing key yields none
(undefined). -/
def mapGet {κ : Type u} {α : Type v} [DecidableEq κ] : List (κ × α) → κ → Option α
  | [], _ => none
  | (k2, v) :: rest, k => if k2 = k then some v else mapGet rest k

/-- Deletion from an association list modelling JS Map.delete: removes
every entry with the given key (a JS Map holds at most one). -/
def mapDelete {κ : Type u} {α : Type v} [DecidableEq κ] : List (κ × α) → κ → List (κ × α)
  | [], _ => []
  | (k2, v) :: rest, k =>
    if k2 = k then mapDelete rest k else (k2, v) :: mapDelete rest k

/-- Membership test modelling JS Map.has. -/
def mapHas {κ : Type u} {α : Type v} [DecidableEq κ] (m : List (κ × α)) (k : κ) : Bool :=
  (mapGet m k).isSome

/-- Insertion modelling JS Map.set: replaces an existing entry in place,
otherwise appends. -/
def mapSet {κ : Type u} {α : Type v} [DecidableEq κ] : List (κ × α) → κ → α → List (κ × α)
  | [], k, v => [(k, v)]
  | (k2, v2) :: rest, k, v =>
    if k2 = k then (k, v) :: rest else (k2, v2) :: mapSet rest k v

/- ------------------------------------------------------------------
Wire protocol codec: parseMessage and its assert helpers, from
src/packages/server/src/ws/wssHandler.ts lines 53 to 92.
------------------------------------------------------------------- -/

/-- The three procedure types of the router layer. -/
inductive ProcedureType where
  | query
  | mutation
  | subscription
deriving DecidableEq

/-- An inbound websocket message as seen by parseMessage.  JSON.parse is
a runtime builtin, so a text message is modelled by the outcome of
decoding it: notString is any non-string payload, textUnparsable is a
string JSON.parse throws on, and textJson v is a string that decodes to
the JS value v. -/
inductive RawMessage where
  | notString
  | textUnparsable
  | textJson (v : JsValue)

/-- The result shape of parseMessage: either a stop request or a
procedure request with type, id, optional input and path. -/
inductive ParsedMessage where
  | stop (id : Int)
  | proc (type : ProcedureType) (id : Int) (input : Option JsValue) (path : String)

/-- assertIsObject from the source: passes exactly on a non-array,
non-null object (typeof obj is object, not an array, truthy).  Takes an
Option since destructured fields may be undefined. -/
def assertIsObject : Option JsValue → Except String (List (String × JsValue))
  | some (.obj fields) => .ok fields
  | _ => .error "Not an object"

/-- assertIsProcedureType from the source: the strict equality chain of
the source passes exactly on the strings query, subscription and
mutation. -/
def assertIsProcedureType : Option JsValue → Except String ProcedureType
  | some (.str s) =>
    if s = "query" then .ok .query
    else if s = "subscription" then .ok .subscription
    else if s = "mutation" then .ok .mutation
    else .error "Invalid procedure type"
  | _ => .error "Invalid procedure type"

/-- assertIsRequestId from the source: passes exactly on a number that
is not NaN. -/
def assertIsRequestId : Option JsValue → Except String Int
  | some (.num n) => .ok n
  | _ => .error "Invalid requestId"

/-- assertIsString from the source: passes exactly on a string. -/
def assertIsString : Option JsValue → Except String String
  | some (.str s) => .ok s
  | _ => .error "Invalid string"

/-- The JS strict comparison method === stop of the source: true
exactly when the (possibly undefined) field value is the string stop. -/
def isStopValue : Option JsValue → Bool
  | some (.str s) => decide (s = "stop")
  | _ => false

/-- The tail of parseMessage after the params field has been
destructured: asserts params is an object with a string path and
returns the procedure variant with its arbitrary input field. -/
def parseParams (params? : Option JsValue) (t : ProcedureType) (id : Int) :
    Except String ParsedMessage :=
  match assertIsObject params? with
  | .error e => .error e
  | .ok params =>
    match assertIsString (mapGet params "path") with
    | .error e => .error e
    | .ok path => .ok (.proc t id (mapGet params "input") path)

/-- The non-stop tail of parseMessage: asserts the method field is a
procedure type, then validates params. -/
def parseProcedure (fields : List (String × JsValue)) (id : Int) :
    Except String ParsedMessage :=
  match assertIsProcedureType (mapGet fields "method") with
  | .error e => .error e
  | .ok t => parseParams (mapGet fields "params") t id

/-- parseMessage from the source: asserts the message is a string,
JSON-decodes it, asserts the result is an object, asserts the id field
is a non-NaN number, then returns the stop variant when method is the
string stop, otherwise asserts method is a procedure type and params an
object with a string path. -/
def parseMessage : RawMessage → Except String ParsedMessage
  | .notString => .error "Invalid string"
  | .textUnparsable => .error "Unexpected token in JSON"
  | .textJson v =>
    match assertIsObject (some v) with
    | .error e => .error e
    | .ok fields =>
      match assertIsRequestId (mapGet fields "id") with
      | .error e => .error e
      | .ok id =>
        if isStopValue (mapGet fields "method") then .ok (.stop id)
        else parseProcedure fields id

/-- Success test for an Except result. -/
def isOkResult {ε : Type u} {α : Type v} : Except ε α → Bool
  | .ok _ => true
  | .error _ => false

/-- Spec-side predicate, written from the words of the claim: the field
value is a number that is not NaN. -/
def isNumericNonNaN : Option JsValue → Bool
  | some (.num _) => true
  | _ => false

/-- Spec-side predicate: the field value is a string. -/
def isStringValue : Option JsValue → Bool
  | some (.str _) => true
  | _ => false

/-- Spec-side predicate: the method field equals the string stop. -/
def isStopMethod : Option JsValue → Bool
  | some (.str s) => decide (s = "stop")
  | _ => false

/-- Spec-side predicate: the method field is one of the strings query,
mutation, subscription. -/
def isProcedureMethod : Option JsValue → Bool
  | some (.str s) => decide (s = "query") || decide (s = "mutation") || decide (s = "subscription")
  | _ => false

/-- Spec-side predicate: the params field is an object containing a
string path. -/
def paramsWithStringPath : Option JsValue → Bool
  | some (.obj pf) => isStringValue (mapGet pf "path")
  | _ => false

/-- Acceptance condition written from the words of the claim for the
inbound message parser: a string whose JSON decoding is a non-array
object with a numeric non-NaN id, and either method stop, or method one
of the three procedure types with params an object containing a string
path. -/
def specAcceptsMessage : RawMessage → Bool
  | .textJson (.obj fields) =>
    isNumericNonNaN (mapGet fields "id") &&
      (isStopMethod (mapGet fields "method") ||
        (isProcedureMethod (mapGet fields "method") &&
          paramsWithStringPath (mapGet fields "params")))
  | _ => false

/- ------------------------------------------------------------------
Client link pipeline stage, from
src/packages/client/src/links/httpBatchLink.ts lines 71 to 99.
------------------------------------------------------------------- -/

/-- The two-valued type and method of the HTTP transport (the
subscription case is rejected before reaching it). -/
inductive QMType where
  | query
  | mutation
deriving DecidableEq

/-- A logical client operation as the link stage sees it: declared type
and optional dispatch method. -/
structure Operation where
  id : Nat
  type : ProcedureType
  method : Option ProcedureType
  path : String
  input : Option JsValue

/-- The link stage entry from the source: throws (before touching any
loader, hence before any network request) when type or method is
subscription, otherwise selects the loader keyed by declared type and by
method with the declared type as fallback. -/
def linkStageDispatch (op : Operation) : Except String (QMType × QMType) :=
  if op.type = .subscription ∨ op.method = some .subscription then
    .error "Subscriptions are not supported over HTTP, please add a Websocket link"
  else
    match op.type, op.method with
    | .query, some .query => .ok (.query, .query)
    | .query, some .mutation => .ok (.query, .mutation)
    | .query, _ => .ok (.query, .query)
    | .mutation, some .query => .ok (.mutation, .query)
    | .mutation, some .mutation => .ok (.mutation, .mutation)
    | .mutation, _ => .ok (.mutation, .mutation)
    | .subscription, _ => .error "Subscriptions are not supported over HTTP, please add a Websocket link"

/-- State of the downstream delivery guard of one link stage call:
the isDone flag of the source and the list of results the downstream
callback prev has been invoked with. -/
structure LinkState (ρ : Type u) where
  isDone : Bool
  delivered : List ρ
deriving DecidableEq

/-- prevOnce from the source: if isDone is already set the settlement is
dropped, otherwise isDone is set and the result is delivered downstream
exactly once. -/
def prevOnce {ρ : Type u} (s : LinkState ρ) (result : ρ) : LinkState ρ :=
  if s.isDone then s
  else { isDone := true, delivered := s.delivered ++ [result] }

/-- Run a sequence of settlement attempts (teardown abort, network
resolution, network rejection, in any order) through prevOnce. -/
def runSettlements {ρ : Type u} (s : LinkState ρ) (events : List ρ) : LinkState ρ :=
  events.foldl prevOnce s

/- ------------------------------------------------------------------
Batch coalescer fetcher, from
src/packages/client/src/links/httpBatchLink.ts lines 23 to 47.
------------------------------------------------------------------- -/

/-- The Key type of the batch loader from the source: id, path and
input of one buffered operation. -/
structure Key where
  id : Nat
  path : String
  input : Option JsValue

/-- Shape of the combined network response: either a single non-array
value or an array of per-call values. -/
inductive BatchResponse (α : Type u) where
  | single (v : α)
  | multi (elems : List α)

/-- The then-handler of the fetcher promise from the source: a
non-array response is replicated once per window entry
(keyInputPairs.map of the constant), an array response is passed
through unchanged. -/
def fetcherThen {α : Type u} (keyInputPairs : List Key) (res : BatchResponse α) : List α :=
  match res with
  | .single v => keyInputPairs.map (fun _ => v)
  | .multi elems => elems

/-- Modelled from the spec: the batch coalescer (the dataLoader helper,
whose source file is not under src) delivers element i of the list the
fetcher promise resolved to, to window entry i (positional
correspondence, spec section 4.1). -/
def deliverToEntry {α : Type u} (resolved : List α) (i : Nat) : Option α :=
  resolved.get? i

/- ------------------------------------------------------------------
Request executor, from the httpRequest helper inlined after
src/packages/client/src/links/httpBatchLink.ts (arrayToDict, getUrl,
the AbortController wiring and the cancel closure).
------------------------------------------------------------------- -/

/-- Helper for arrayToDict: builds the entries of the dict from a
running index, mirroring the index loop of the source. -/
def arrayToDictFrom {α : Type u} (index : Nat) : List α → List (Nat × α)
  | [] => []
  | a :: rest => (index, a) :: arrayToDictFrom (index + 1) rest

/-- arrayToDict from the source: dict with dict at index = array at
index for every index below the length. -/
def arrayToDict {α : Type u} (array : List α) : List (Nat × α) :=
  arrayToDictFrom 0 array

/-- The input slot of httpRequest props: either the singular input
variant or the plural inputs variant (the batch fetcher always passes
the plural one).  Values are Option JsValue since JS values may be
undefined. -/
inductive InputKind where
  | single (input : Option JsValue)
  | batched (inputs : List (Option JsValue))

/-- The props of httpRequest relevant to URL construction. -/
structure RequestProps where
  url : String
  path : String
  type : QMType
  method : QMType
  inputKind : InputKind

/-- Whether the props carry the plural inputs variant (the JS check
inputs in props). -/
def isBatched (p : RequestProps) : Bool :=
  match p.inputKind with
  | .batched _ => true
  | .single _ => false

/-- Number of inputs present in the request. -/
def numInputs (p : RequestProps) : Nat :=
  match p.inputKind with
  | .batched inputs => inputs.length
  | .single _ => 1

/-- The combined serialized input of httpRequest: the serialized single
input (possibly undefined), or the index-keyed dict of the
independently serialized inputs. -/
inductive CombinedInput where
  | ofSingle (v : JsValue)
  | ofDict (d : List (Nat × Option JsValue))

/-- The input constant of httpRequest from the source: the singular
variant serializes props.input directly, the plural variant maps the
transformer serialization over the inputs and packs them with
arrayToDict.  none models the JS value undefined. -/
def combinedInput (serialize : Option JsValue → Option JsValue) (p : RequestProps) :
    Option CombinedInput :=
  match p.inputKind with
  | .single input =>
    match serialize input with
    | some v => some (.ofSingle v)
    | none => none
  | .batched inputs => some (.ofDict (arrayToDict (inputs.map serialize)))

/-- One query string part of the constructed URL.  The JSON and URL
encodings are runtime builtins, so the input part carries the combined
value itself. -/
inductive QueryPart where
  | typePart (t : QMType)
  | batchPart
  | inputPart (v : CombinedInput)

/-- The queryParts list built by getUrl from the source: type=... when
declared type and dispatch method differ, batch=1 when the props carry
the plural inputs variant, input=... when the dispatch method is query
and the combined input is defined. -/
def getUrlQueryParts (serialize : Option JsValue → Option JsValue) (p : RequestProps) :
    List QueryPart :=
  (if p.type ≠ p.method then [QueryPart.typePart p.type] else []) ++
    (if isBatched p then [QueryPart.batchPart] else []) ++
    (match p.method, combinedInput serialize p with
     | .query, some c => [QueryPart.inputPart c]
     | _, _ => [])

/-- Whether a query part is the type parameter. -/
def isTypePart : QueryPart → Bool
  | .typePart _ => true
  | _ => false

/-- Whether a query part is the batch=1 parameter. -/
def isBatchPart : QueryPart → Bool
  | .batchPart => true
  | _ => false

/-- Whether a query part is the input parameter. -/
def isInputPart : QueryPart → Bool
  | .inputPart _ => true
  | _ => false

/-- Presence of a type=... parameter in the parts list. -/
def hasTypePart (l : List QueryPart) : Bool := l.any isTypePart

/-- Presence of the batch=1 parameter in the parts list. -/
def hasBatchPart (l : List QueryPart) : Bool := l.any isBatchPart

/-- Presence of an input=... parameter in the parts list. -/
def hasInputPart (l : List QueryPart) : Bool := l.any isInputPart

/-- State of one in-flight request with respect to cancellation. -/
structure RequestState where
  aborted : Bool
deriving DecidableEq

/-- The cancel closure of httpRequest from the source: ac is the
injected AbortController when one exists, otherwise null, and cancel
performs ac optional-chaining abort, so without an AbortController it
does nothing (and in particular never throws). -/
def cancelFn (hasAbortController : Bool) (s : RequestState) : RequestState :=
  if hasAbortController then { aborted := true } else s

/-- Invoking the cancel closure k times in a row. -/
def cancelTimes (hasAbortController : Bool) (k : Nat) (s : RequestState) : RequestState :=
  (cancelFn hasAbortController)^[k] s

/-- Modelled from the spec: the fetch collaborator is an injected
runtime capability (out of scope per spec section 1), and a request
whose abort signal never fires settles with the ordinary fetch outcome,
while an aborted one rejects. -/
def requestOutcome (fetchResult : Except String JsValue) (s : RequestState) :
    Except String JsValue :=
  if s.aborted then .error "AbortError" else fetchResult

/- ------------------------------------------------------------------
Connection-scoped subscription registry, from
src/packages/server/src/ws/wssHandler.ts lines 129 to 223.
------------------------------------------------------------------- -/

/-- State of one websocket connection as the handler mutates it:
the clientSubscriptions registry (request id to subscription source),
the accumulated destroy calls, the responses sent on the socket
(request id and the ok flag of the envelope), and whether the handler
closed the connection. -/
structure WsState (σ : Type u) where
  registry : List (Int × σ)
  destroyed : List σ
  sent : List (Int × Bool)
  connClosed : Bool

/-- The close listener body from the source: destroy every subscription
remaining in the registry and clear it.  One such listener is
registered per message event received on the connection. -/
def closeHandler {σ : Type u} (s : WsState σ) : WsState σ :=
  { s with registry := [], destroyed := s.destroyed ++ s.registry.map Prod.snd }

/-- A close event on the connection runs every registered close
listener in order: k listeners when k message events were received
before the close. -/
def closeEvent {σ : Type u} (k : Nat) (s : WsState σ) : WsState σ :=
  closeHandler^[k] s

/-- The subscription-result branch of the message handler from the
source: if the client socket is no longer open the new source is
destroyed and nothing is sent; else if the registry already has the id
the new source is destroyed and the thrown duplicate-id error is caught
by the handler, which responds with an error envelope for that id;
otherwise the source is registered under the id. -/
def handleSubscriptionResult {σ : Type u} (s : WsState σ) (clientOpen : Bool) (id : Int)
    (sub : σ) : WsState σ :=
  if clientOpen = false then
    { s with destroyed := s.destroyed ++ [sub] }
  else if mapHas s.registry id then
    { s with destroyed := s.destroyed ++ [sub], sent := s.sent ++ [(id, false)] }
  else
    { s with registry := mapSet s.registry id sub }

/-- The stop branch of the message handler from the source: the
optional-chaining destroy of the registry entry for the id (a no-op
when absent), followed by Map.delete of the id, then return without
responding. -/
def handleStop {σ : Type u} (s : WsState σ) (id : Int) : WsState σ :=
  { s with destroyed := s.destroyed ++ (mapGet s.registry id).toList,
           registry := mapDelete s.registry id }

/- ------------------------------------------------------------------
Helper lemmas.
------------------------------------------------------------------- -/

theorem runSettlements_isDone {ρ : Type u} (s : LinkState ρ) (h : s.isDone = true)
    (events : List ρ) : runSettlements s events = s := by
  induction events with
  | nil => rfl
  | cons e rest ih =>
    simp only [runSettlements, List.foldl_cons]
    have : prevOnce s e = s := by simp [prevOnce, h]
    rw [this]
    exact ih

theorem closeHandler_idem {σ : Type u} (s : WsState σ) :
    closeHandler (closeHandler s) = closeHandler s := by
  simp [closeHandler]

theorem closeEvent_of_pos {σ : Type u} (k : Nat) (hk : 1 ≤ k) (s : WsState σ) :
    closeEvent k s = closeHandler s := by
  induction k with
  | zero => omega
  | succ n ih =>
    rcases Nat.eq_or_lt_of_le hk with h1 | h2
    · simp [closeEvent, ← h1]
    · have hn : 1 ≤ n := by omega
      have : closeEvent (n + 1) s = closeHandler (closeEvent n s) := by
        simp [closeEvent, Function.iterate_succ_apply']
      rw [this, ih hn, closeHandler_idem]

theorem mapGet_mapDelete_self {κ : Type u} {α : Type v} [DecidableEq κ]
    (m : List (κ × α)) (k : κ) : mapGet (mapDelete m k) k = none := by
  induction m with
  | nil => rfl
  | cons p rest ih =>
    obtain ⟨k2, v⟩ := p
    by_cases h : k2 = k
    · simp [mapDelete, h, ih]
    · simp [mapDelete, h, mapGet, ih]

theorem mapDelete_of_get_none {κ : Type u} {α : Type v} [DecidableEq κ]
    (m : List (κ × α)) (k : κ) (h : mapGet m k = none) : mapDelete m k = m := by
  induction m with
  | nil => rfl
  | cons p rest ih =>
    obtain ⟨k2, v⟩ := p
    by_cases hk : k2 = k
    · simp [mapGet, hk] at h
    · simp only [mapGet, if_neg hk] at h
      simp [mapDelete, hk, ih h]

theorem mapGet_arrayToDictFrom {α : Type u} (l : List α) (n i : Nat) :
    mapGet (arrayToDictFrom n l) (n + i) = l.get? i := by
  induction l generalizing n i with
  | nil => simp [arrayToDictFrom, mapGet]
  | cons a rest ih =>
    cases i with
    | zero => simp [arrayToDictFrom, mapGet]
    | succ j =>
      have hne : n ≠ n + (j + 1) := by omega
      have harg : (n + 1) + j = n + (j + 1) := by omega
      simp only [arrayToDictFrom, mapGet, if_neg hne, List.get?]
      rw [← harg, ih]

theorem mapGet_arrayToDict {α : Type u} (l : List α) (i : Nat) :
    mapGet (arrayToDict l) i = l.get? i := by
  have := mapGet_arrayToDictFrom l 0 i
  simpa [arrayToDict] using this

/- ------------------------------------------------------------------
Claim theorems.
------------------------------------------------------------------- -/

/-- C2: for every operation handled by the client link stage, the
downstream callback prev is invoked at most once across all settlement
paths: whatever sequence of settlement attempts reaches prevOnce
(network success, network failure, teardown abort, in any order,
including a late network resolution after the teardown hook delivered
the abort result), only the first one is delivered and every later one
produces no further delivery. -/
theorem C2_downstream_at_most_once {ρ : Type u} (events : List ρ) :
    (runSettlements ⟨false, []⟩ events).delivered = events.take 1 := by
  cases events with
  | nil => rfl
  | cons e rest =>
    have h1 : prevOnce (⟨false, []⟩ : LinkState ρ) e = ⟨true, [e]⟩ := by
      simp [prevOnce]
    calc (runSettlements ⟨false, []⟩ (e :: rest)).delivered
        = (runSettlements ⟨true, [e]⟩ rest).delivered := by
          simp [runSettlements, List.foldl_cons, h1]
      _ = [e] := by rw [runSettlements_isDone ⟨true, [e]⟩ rfl rest]
      _ = (e :: rest).take 1 := by simp

/-- C3: when a socket connection closes, every subscription remaining
in the registry receives exactly one destroy call and the registry is
cleared, however many close listeners have accumulated (one per message
event received before the close); a second close event performs no
further destroy calls and leaves the state unchanged. -/
theorem C3_connection_close_destroys_once {σ : Type u} (s : WsState σ) (k k2 : Nat)
    (hk : 1 ≤ k) (hk2 : 1 ≤ k2) :
    (closeEvent k s).destroyed = s.destroyed ++ s.registry.map Prod.snd ∧
    (closeEvent k s).registry = [] ∧
    closeEvent k2 (closeEvent k s) = closeEvent k s := by
  rw [closeEvent_of_pos k hk, closeEvent_of_pos k2 hk2]
  exact ⟨rfl, rfl, closeHandler_idem s⟩

theorem C3_connection_close_destroys_once_witness :
    (closeEvent 3 ⟨[(1, 10), (2, 20)], [], [], false⟩ : WsState Nat).destroyed = [10, 20] ∧
    (closeEvent 3 ⟨[(1, 10), (2, 20)], [], [], false⟩ : WsState Nat).registry = [] ∧
    closeEvent 2 (closeEvent 3 (⟨[(1, 10), (2, 20)], [], [], false⟩ : WsState Nat)) =
      closeEvent 3 (⟨[(1, 10), (2, 20)], [], [], false⟩ : WsState Nat) := by
  have h := C3_connection_close_destroys_once
    (⟨[(1, 10), (2, 20)], [], [], false⟩ : WsState Nat) 3 2 (by decide) (by decide)
  simpa using h

/-- C10: when no AbortController constructor is injected, the cancel
closure returned by httpRequest is a no-op for any number of
invocations (the request state never becomes aborted), and the request
promise settles with the ordinary fetch outcome. -/
theorem C10_cancel_noop_without_abortcontroller (k : Nat)
    (fetchResult : Except String JsValue) :
    cancelTimes false k ⟨false⟩ = ⟨false⟩ ∧
    requestOutcome fetchResult (cancelTimes false k ⟨false⟩) = fetchResult := by
  have hid : cancelTimes false k ⟨false⟩ = ⟨false⟩ := by
    induction k with
    | zero => rfl
    | succ n ih =>
      have : cancelTimes false (n + 1) ⟨false⟩ =
          cancelFn false (cancelTimes false n ⟨false⟩) := by
        simp [cancelTimes, Function.iterate_succ_apply']
      rw [this, ih]
      rfl
  exact ⟨hid, by rw [hid]; rfl⟩

/-- C1: for every batch window, a non-array combined response makes
every window entry resolve to that same single value (degraded-response
policy), and an array response delivers element i to window entry i. -/
theorem C1_batch_response_delivery {α : Type u} (keys : List Key) (i : Nat)
    (hi : i < keys.length) :
    (∀ v : α, deliverToEntry (fetcherThen keys (BatchResponse.single v)) i = some v) ∧
    (∀ elems : List α,
      deliverToEntry (fetcherThen keys (BatchResponse.multi elems)) i = elems.get? i) := by
  constructor
  · intro v
    have h := List.get?_eq_get hi
    show (keys.map fun _ => v).get? i = some v
    rw [List.get?_map, h]
    rfl
  · intro elems
    rfl

theorem C1_batch_response_delivery_witness :
    (∀ v : Nat,
      deliverToEntry (fetcherThen [⟨1, "a", none⟩, ⟨2, "b", none⟩]
        (BatchResponse.single v)) 1 = some v) ∧
    (∀ elems : List Nat,
      deliverToEntry (fetcherThen [⟨1, "a", none⟩, ⟨2, "b", none⟩]
        (BatchResponse.multi elems)) 1 = elems.get? 1) :=
  C1_batch_response_delivery [⟨1, "a", none⟩, ⟨2, "b", none⟩] 1 (by decide)

/-- C4: an inbound subscription request whose id already has a live
registry entry gets its newly created source destroyed, leaves the
registry unchanged, and sends back one error envelope for that id,
while the connection is not closed. -/
theorem C4_duplicate_subscription_id {σ : Type u} (s : WsState σ) (id : Int) (sub old : σ)
    (hlive : mapGet s.registry id = some old) :
    handleSubscriptionResult s true id sub =
      { s with destroyed := s.destroyed ++ [sub], sent := s.sent ++ [(id, false)] } ∧
    (handleSubscriptionResult s true id sub).registry = s.registry ∧
    (handleSubscriptionResult s true id sub).connClosed = s.connClosed := by
  have hhas : mapHas s.registry id = true := by simp [mapHas, hlive]
  have h1 : handleSubscriptionResult s true id sub =
      { s with destroyed := s.destroyed ++ [sub], sent := s.sent ++ [(id, false)] } := by
    simp [handleSubscriptionResult, hhas]
  exact ⟨h1, by rw [h1], by rw [h1]⟩

theorem C4_duplicate_subscription_id_witness :
    handleSubscriptionResult (⟨[(5, 7)], [], [], false⟩ : WsState Nat) true 5 9 =
      ⟨[(5, 7)], [9], [(5, false)], false⟩ ∧
    (handleSubscriptionResult (⟨[(5, 7)], [], [], false⟩ : WsState Nat) true 5 9).registry =
      [(5, 7)] ∧
    (handleSubscriptionResult (⟨[(5, 7)], [], [], false⟩ : WsState Nat) true 5 9).connClosed =
      false := by
  have h := C4_duplicate_subscription_id (⟨[(5, 7)], [], [], false⟩ : WsState Nat) 5 9 7
    (by decide)
  simpa using h

/-- C8: the HTTP link stage fails an operation whose declared type or
dispatch method is subscription before any loader (hence any network
request) is reached, with the capability error message; every other
operation obtains a loader key and proceeds. -/
theorem C8_subscription_capability_error (op : Operation) :
    (op.type = .subscription ∨ op.method = some .subscription →
      linkStageDispatch op =
        .error "Subscriptions are not supported over HTTP, please add a Websocket link") ∧
    (op.type ≠ .subscription ∧ op.method ≠ some .subscription →
      ∃ tk mk, linkStageDispatch op = .ok (tk, mk)) := by
  obtain ⟨i, t, m, p, inp⟩ := op
  constructor
  · intro h
    simp only [linkStageDispatch]
    rw [if_pos h]
  · rintro ⟨h1, h2⟩
    simp only [linkStageDispatch]
    rw [if_neg (by push_neg; exact ⟨h1, h2⟩)]
    cases t with
    | subscription => exact absurd rfl h1
    | query =>
      cases m with
      | none => exact ⟨.query, .query, rfl⟩
      | some pt =>
        cases pt with
        | query => exact ⟨.query, .query, rfl⟩
        | mutation => exact ⟨.query, .mutation, rfl⟩
        | subscription => exact absurd rfl h2
    | mutation =>
      cases m with
      | none => exact ⟨.mutation, .mutation, rfl⟩
      | some pt =>
        cases pt with
        | query => exact ⟨.mutation, .query, rfl⟩
        | mutation => exact ⟨.mutation, .mutation, rfl⟩
        | subscription => exact absurd rfl h2

theorem C8_subscription_capability_error_witness :
    linkStageDispatch ⟨1, .subscription, none, "p", none⟩ =
      .error "Subscriptions are not supported over HTTP, please add a Websocket link" ∧
    (∃ tk mk, linkStageDispatch ⟨2, .query, some .mutation, "q", none⟩ = .ok (tk, mk)) := by
  constructor
  · exact (C8_subscription_capability_error ⟨1, .subscription, none, "p", none⟩).1 (Or.inl rfl)
  · exact (C8_subscription_capability_error ⟨2, .query, some .mutation, "q", none⟩).2
      ⟨by decide, by decide⟩

/-- C9: a stop message for an id with a live registry entry destroys
exactly that source and removes the entry; a stop for an absent id
(including a duplicate stop after the first) changes no state; in every
case no response message is sent and the connection is not closed. -/
theorem C9_stop_message {σ : Type u} (s : WsState σ) (id : Int) :
    (∀ sub, mapGet s.registry id = some sub →
      handleStop s id =
        { s with registry := mapDelete s.registry id,
                 destroyed := s.destroyed ++ [sub] } ∧
      mapGet (handleStop s id).registry id = none) ∧
    (mapGet s.registry id = none → handleStop s id = s) ∧
    handleStop (handleStop s id) id = handleStop s id ∧
    (handleStop s id).sent = s.sent ∧
    (handleStop s id).connClosed = s.connClosed := by
  refine ⟨?_, ?_, ?_, rfl, rfl⟩
  · intro sub h
    constructor
    · simp [handleStop, h]
    · simp [handleStop, mapGet_mapDelete_self]
  · intro h
    simp [handleStop, h, mapDelete_of_get_none s.registry id h]
  · have hnone : mapGet (mapDelete s.registry id) id = none :=
      mapGet_mapDelete_self s.registry id
    have hdel : mapDelete (mapDelete s.registry id) id = mapDelete s.registry id :=
      mapDelete_of_get_none _ id hnone
    simp [handleStop, hnone, hdel]

theorem C9_stop_message_witness :
    handleStop (⟨[(5, 7)], [], [], false⟩ : WsState Nat) 5 = ⟨[], [7], [], false⟩ ∧
    handleStop (⟨[(5, 7)], [], [], false⟩ : WsState Nat) 3 = ⟨[(5, 7)], [], [], false⟩ := by
  constructor
  · have h := ((C9_stop_message (⟨[(5, 7)], [], [], false⟩ : WsState Nat) 5).1 7
      (by decide)).1
    simpa [mapDelete] using h
  · exact (C9_stop_message (⟨[(5, 7)], [], [], false⟩ : WsState Nat) 3).2.1 (by decide)

theorem isStopMethod_eq_isStopValue (x : Option JsValue) :
    isStopMethod x = isStopValue x := by
  cases x with
  | none => rfl
  | some w => cases w <;> rfl

theorem parseParams_isOk (x : Option JsValue) (t : ProcedureType) (id : Int) :
    isOkResult (parseParams x t id) = paramsWithStringPath x := by
  cases x with
  | none => rfl
  | some w =>
    cases w with
    | obj pf =>
      simp only [parseParams, assertIsObject, paramsWithStringPath]
      cases hp : mapGet pf "path" with
      | none => rfl
      | some pv => cases pv <;> rfl
    | null => rfl
    | bool b => rfl
    | num n => rfl
    | nan => rfl
    | str s => rfl
    | arr elems => rfl

theorem parseProcedure_isOk (fields : List (String × JsValue)) (id : Int) :
    isOkResult (parseProcedure fields id) =
      (isProcedureMethod (mapGet fields "method") &&
        paramsWithStringPath (mapGet fields "params")) := by
  simp only [parseProcedure]
  cases hm : mapGet fields "method" with
  | none => simp [assertIsProcedureType, isProcedureMethod, isOkResult]
  | some w =>
    cases w with
    | str s =>
      by_cases hq : s = "query"
      · subst hq
        simp [assertIsProcedureType, isProcedureMethod, parseParams_isOk]
      · by_cases hs : s = "subscription"
        · subst hs
          simp [assertIsProcedureType, isProcedureMethod, parseParams_isOk]
        · by_cases hmu : s = "mutation"
          · subst hmu
            simp [assertIsProcedureType, isProcedureMethod, parseParams_isOk]
          · simp [assertIsProcedureType, isProcedureMethod, hq, hs, hmu, isOkResult]
    | null => simp [assertIsProcedureType, isProcedureMethod, isOkResult]
    | bool b => simp [assertIsProcedureType, isProcedureMethod, isOkResult]
    | num n => simp [assertIsProcedureType, isProcedureMethod, isOkResult]
    | nan => simp [assertIsProcedureType, isProcedureMethod, isOkResult]
    | arr elems => simp [assertIsProcedureType, isProcedureMethod, isOkResult]
    | obj pf => simp [assertIsProcedureType, isProcedureMethod, isOkResult]

/-- C5: the inbound message parser accepts a message exactly when it is
a string whose JSON decoding is a non-array object with a numeric
non-NaN id and either method stop (no other field required) or method
one of query, mutation, subscription with params an object containing a
string path; any other shape makes the parse of that one message fail
with an error (the parser performs no connection-level action). -/
theorem C5_parse_message_acceptance (m : RawMessage) :
    isOkResult (parseMessage m) = specAcceptsMessage m := by
  cases m with
  | notString => rfl
  | textUnparsable => rfl
  | textJson v =>
    cases v with
    | obj fields =>
      simp only [parseMessage, specAcceptsMessage, assertIsObject]
      cases hid : mapGet fields "id" with
      | none => simp [assertIsRequestId, isNumericNonNaN, isOkResult]
      | some w =>
        cases w with
        | num n =>
          simp only [assertIsRequestId, isNumericNonNaN, Bool.true_and]
          by_cases hstop : isStopValue (mapGet fields "method") = true
          · rw [if_pos hstop, isStopMethod_eq_isStopValue, hstop]
            rfl
          · rw [if_neg hstop, parseProcedure_isOk, isStopMethod_eq_isStopValue]
            have hfalse : isStopValue (mapGet fields "method") = false :=
              Bool.not_eq_true _ ▸ eq_false_of_ne_true hstop
            rw [hfalse]
            simp
        | null => simp [assertIsRequestId, isNumericNonNaN, isOkResult]
        | bool b => simp [assertIsRequestId, isNumericNonNaN, isOkResult]
        | nan => simp [assertIsRequestId, isNumericNonNaN, isOkResult]
        | str s => simp [assertIsRequestId, isNumericNonNaN, isOkResult]
        | arr elems => simp [assertIsRequestId, isNumericNonNaN, isOkResult]
        | obj pf => simp [assertIsRequestId, isNumericNonNaN, isOkResult]
    | null => rfl
    | bool b => rfl
    | num n => rfl
    | nan => rfl
    | str s => rfl
    | arr elems => rfl

theorem hasTypePart_getUrl (serialize : Option JsValue → Option JsValue)
    (p : RequestProps) :
    hasTypePart (getUrlQueryParts serialize p) = decide (p.type ≠ p.method) := by
  by_cases ht : p.type = p.method <;>
    cases hm : p.method <;>
    cases hc : combinedInput serialize p <;>
    cases hb : isBatched p <;>
    simp_all [hasTypePart, getUrlQueryParts, List.any_append, isTypePart]

theorem hasBatchPart_getUrl (serialize : Option JsValue → Option JsValue)
    (p : RequestProps) :
    hasBatchPart (getUrlQueryParts serialize p) = isBatched p := by
  by_cases ht : p.type = p.method <;>
    cases hm : p.method <;>
    cases hc : combinedInput serialize p <;>
    cases hb : isBatched p <;>
    simp_all [hasBatchPart, getUrlQueryParts, List.any_append, isBatchPart, isTypePart]

theorem hasInputPart_getUrl (serialize : Option JsValue → Option JsValue)
    (p : RequestProps) :
    hasInputPart (getUrlQueryParts serialize p) =
      (decide (p.method = QMType.query) && (combinedInput serialize p).isSome) := by
  by_cases ht : p.type = p.method <;>
    cases hm : p.method <;>
    cases hc : combinedInput serialize p <;>
    cases hb : isBatched p <;>
    simp_all [hasInputPart, getUrlQueryParts, List.any_append, isInputPart, isTypePart,
      isBatchPart]

/-- C6 counterexample: a batched request carrying exactly one input
still gets the batch=1 query parameter (the source adds it whenever the
plural inputs variant is used, not only when more than one input is
present), so the claim as stated fails on this input. -/
theorem C6_query_params_counterexample :
    ¬ (hasBatchPart (getUrlQueryParts (fun v => v)
        ⟨"http://u", "p", QMType.query, QMType.query,
          InputKind.batched [some JsValue.null]⟩) = true ↔
      1 < numInputs ⟨"http://u", "p", QMType.query, QMType.query,
          InputKind.batched [some JsValue.null]⟩) := by
  decide

/-- C6 amended: in the constructed request URL, type=... is present iff
the declared type differs from the dispatch method, batch=1 is present
iff the request carries the plural inputs variant (a batched request,
regardless of how many inputs it holds), and input=... is present iff
the dispatch method is query and the combined serialized input is
defined. -/
theorem C6_amended_query_params (serialize : Option JsValue → Option JsValue)
    (p : RequestProps) :
    (hasTypePart (getUrlQueryParts serialize p) = true ↔ p.type ≠ p.method) ∧
    (hasBatchPart (getUrlQueryParts serialize p) = true ↔ isBatched p = true) ∧
    (hasInputPart (getUrlQueryParts serialize p) = true ↔
      p.method = QMType.query ∧ combinedInput serialize p ≠ none) := by
  rw [hasTypePart_getUrl, hasBatchPart_getUrl, hasInputPart_getUrl]
  refine ⟨by simp, Iff.rfl, ?_⟩
  simp [Option.isSome_iff_ne_none]

/-- C7: for every batched request, each input is serialized
independently through the transformer and the combined input is an
index-keyed dict (not an array): position i maps to the serialization
of input i. -/
theorem C7_batched_input_dict (serialize : Option JsValue → Option JsValue)
    (p : RequestProps) (inputs : List (Option JsValue))
    (hb : p.inputKind = InputKind.batched inputs) (hlen : 1 < inputs.length) :
    ∃ d, combinedInput serialize p = some (CombinedInput.ofDict d) ∧
      ∀ i x, inputs.get? i = some x → mapGet d i = some (serialize x) := by
  refine ⟨arrayToDict (inputs.map serialize), ?_, ?_⟩
  · simp [combinedInput, hb]
  · intro i x h
    rw [mapGet_arrayToDict, List.get?_map, h]
    rfl

theorem C7_batched_input_dict_witness :
    ∃ d, combinedInput (fun v => v)
        ⟨"u", "p", QMType.query, QMType.query,
          InputKind.batched [some JsValue.null, none]⟩ =
        some (CombinedInput.ofDict d) ∧
      ∀ i x, ([some JsValue.null, none] : List (Option JsValue)).get? i = some x →
        mapGet d i = some ((fun v => v) x) :=
  C7_batched_input_dict (fun v => v)
    ⟨"u", "p", QMType.query, QMType.query, InputKind.batched [some JsValue.null, none]⟩
    [some JsValue.null, none] rfl (by decide)

end Spec2Proof
